import Mathlib

/-!
Shallow embedding of gpol/utils/solution.py (class Solution) from the
repository ML-Academic-Stuff.

Python objects that matter to the Solution class live on a heap, so that
deep-copy versus shallow-copy and aliasing questions can be stated: a
torch tensor is modelled as a one-dimensional integer buffer, a Python
list as a container of references, and a Python int stands for a
representation value that supports neither len nor copy. The class
attribute Solution.id_ (the process-wide id counter) is carried in an
explicit global state record together with the heap. Fallible Python
operations (attribute errors, type errors) return Except.
-/

abbrev Addr := Nat

/-- A heap object: a torch tensor (integer buffer), a Python list whose
elements are references, or a Python int (an object with no len and no
copy method). -/
inductive Obj where
  | tensor (data : List Int)
  | pylist (elems : List Addr)
  | pyint (n : Int)
deriving DecidableEq, Repr

abbrev Heap := List Obj

/-- The global state: the heap of Python objects and the class attribute
Solution.id_ from line 39 of solution.py. -/
structure GState where
  heap : Heap
  id_ : Nat
deriving DecidableEq, Repr

/-- A Python value that a Solution attribute can hold: None, a bool, or a
reference to a tensor on the heap. -/
inductive PyVal where
  | none'
  | bool' (b : Bool)
  | tensorRef (a : Addr)
deriving DecidableEq, Repr

/-- The Solution instance attributes. A field of type Option PyVal is
some v when the Python attribute is present with value v and none when
hasattr is false for it. -/
structure Solution where
  _id : Nat
  repr_ : Addr
  valid : Option PyVal
  fit : Option PyVal
  test_fit : Option PyVal
  val_fit : Option PyVal
deriving DecidableEq, Repr

/-- Python exceptions raised by the modelled operations. -/
inductive PyError where
  | attributeError (msg : String)
  | typeError (msg : String)
deriving DecidableEq, Repr

def heapGet (h : Heap) (a : Addr) : Option Obj := h[a]?

/-- Allocate a fresh object at the end of the heap, returning its
address. -/
def alloc (h : Heap) (o : Obj) : Addr × Heap := (h.length, h ++ [o])

def heapSet (h : Heap) (a : Addr) (o : Obj) : Heap := h.set a o

/-- In-place element assignment t[i] = v on the tensor stored at address
a; a no-op on other objects, used only to state independence of copies. -/
def Obj.setElem : Obj → Nat → Int → Obj
  | .tensor d, i, v => .tensor (d.set i v)
  | o, _, _ => o

def mutate (h : Heap) (a : Addr) (i : Nat) (v : Int) : Heap :=
  match heapGet h a with
  | some o => heapSet h a (o.setElem i v)
  | none => h

/-- Lines 41 to 53 of solution.py, the constructor: self._id takes the
class counter Solution.id_, the counter is incremented, repr_ is stored,
and valid and fit are assigned the value None (hence present). -/
def Solution.init (r : Addr) (st : GState) : Solution × GState :=
  ({ _id := st.id_, repr_ := r, valid := some .none', fit := some .none',
     test_fit := none, val_fit := none },
   { st with id_ := st.id_ + 1 })

/-- The torch method v.clone(): defined on tensors, where it allocates a
fresh buffer with the same data; calling it on None or on a bool raises
AttributeError, as in Python. -/
def PyVal.clone (v : PyVal) (h : Heap) : Except PyError (PyVal × Heap) :=
  match v with
  | .tensorRef a =>
    match heapGet h a with
    | some (.tensor d) =>
      let p := alloc h (.tensor d)
      .ok (.tensorRef p.1, p.2)
    | _ => .error (.typeError "stale tensor reference")
  | .none' => .error (.attributeError "NoneType object has no attribute clone")
  | .bool' _ => .error (.attributeError "bool object has no attribute clone")

/-- Lines 76 and 77 of solution.py: if hasattr(self, the name test_fit)
then sol_copy.val_fit = self.val_fit.clone(). Note the guard tests
test_fit while the read and the write use val_fit. -/
def copyValFitStep (self solCopy : Solution) (st : GState) :
    Except PyError (Solution × GState) :=
  if self.test_fit.isSome then
    match self.val_fit with
    | some v =>
      match PyVal.clone v st.heap with
      | .ok (v', h') => .ok ({ solCopy with val_fit := some v' }, { st with heap := h' })
      | .error e => .error e
    | none => .error (.attributeError "Solution object has no attribute val_fit")
  else .ok (solCopy, st)

/-- Lines 74 and 75 of solution.py: if hasattr(self, the name fit) then
sol_copy.fit = self.fit.clone(). -/
def copyFitStep (self solCopy : Solution) (st : GState) :
    Except PyError (Solution × GState) :=
  match self.fit with
  | some v =>
    match PyVal.clone v st.heap with
    | .ok (v', h') => copyValFitStep self { solCopy with fit := some v' } { st with heap := h' }
    | .error e => .error e
  | none => copyValFitStep self solCopy st

/-- Lines 72 and 73 of solution.py: if hasattr(self, the name valid)
then sol_copy.valid = self.valid. -/
def copyValidStep (self solCopy : Solution) (st : GState) :
    Except PyError (Solution × GState) :=
  if self.valid.isSome then copyFitStep self { solCopy with valid := self.valid } st
  else copyFitStep self solCopy st

/-- Lines 55 to 79 of solution.py, the method _get_copy: dispatch on the
representation type, tensors are cloned and lists get list.copy, a
shallow duplicate of the container sharing the element references; then
the Solution constructor runs, and the three guarded attribute copies
follow in order. A Python int representation has no copy method, so the
dispatch raises AttributeError there. -/
def Solution.getCopy (self : Solution) (st : GState) :
    Except PyError (Solution × GState) :=
  match heapGet st.heap self.repr_ with
  | some (.tensor d) =>
    let p := alloc st.heap (.tensor d)
    let q := Solution.init p.1 { heap := p.2, id_ := st.id_ }
    copyValidStep self q.1 q.2
  | some (.pylist es) =>
    let p := alloc st.heap (.pylist es)
    let q := Solution.init p.1 { heap := p.2, id_ := st.id_ }
    copyValidStep self q.1 q.2
  | some (.pyint _) => .error (.attributeError "int object has no attribute copy")
  | none => .error (.typeError "stale representation reference")

/-- Lines 81 and 82 of solution.py, the method __len__, which returns
len(self.repr_): the length of a list, the size of the first dimension
of a tensor, and a TypeError on an object with no len, as Python raises
for an int. -/
def Solution.len (self : Solution) (h : Heap) : Except PyError Nat :=
  match heapGet h self.repr_ with
  | some (.tensor d) => .ok d.length
  | some (.pylist es) => .ok es.length
  | some (.pyint _) => .error (.typeError "object of type int has no len")
  | none => .error (.typeError "stale representation reference")

/-- A sequence of N single-threaded constructions, threading the shared
counter state, as in section 8 of the spec. -/
def constructAll (rs : List Addr) (st : GState) : List Solution × GState :=
  match rs with
  | [] => ([], st)
  | r :: rest =>
    let p := Solution.init r st
    let q := constructAll rest p.2
    (p.1 :: q.1, q.2)


lemma heapGet_lt_length {h : Heap} {a : Addr} {o : Obj}
    (ha : heapGet h a = some o) : a < h.length := by
  unfold heapGet at ha
  exact (List.getElem?_eq_some.mp ha).1

lemma heapGet_append_left {h : Heap} (ext : Heap) {a : Addr}
    (ha : a < h.length) : heapGet (h ++ ext) a = heapGet h a := by
  unfold heapGet
  exact List.getElem?_append_left ha

lemma heapGet_append_mid (h ext : Heap) (o : Obj) :
    heapGet (h ++ o :: ext) (h.length) = some o := by
  unfold heapGet
  rw [List.getElem?_append_right (Nat.le_refl _)]
  simp

lemma mutate_ne {h : Heap} {a b : Addr} (hab : a ≠ b) (i : Nat) (v : Int) :
    heapGet (mutate h a i v) b = heapGet h b := by
  unfold mutate
  cases ho : heapGet h a with
  | none => rfl
  | some o =>
    unfold heapGet heapSet
    exact List.getElem?_set_ne hab

lemma clone_ok_inv {v v' : PyVal} {h h' : Heap}
    (hc : PyVal.clone v h = .ok (v', h')) :
    ∃ a d, v = .tensorRef a ∧ heapGet h a = some (.tensor d) ∧
      v' = .tensorRef h.length ∧ h' = h ++ [.tensor d] := by
  cases v with
  | none' => simp [PyVal.clone] at hc
  | bool' b => simp [PyVal.clone] at hc
  | tensorRef a =>
    cases ho : heapGet h a with
    | none => simp [PyVal.clone, ho] at hc
    | some o =>
      cases o with
      | tensor d =>
        simp [PyVal.clone, ho, alloc] at hc
        exact ⟨a, d, rfl, ho, hc.1.symm, hc.2.symm⟩
      | pylist es => simp [PyVal.clone, ho] at hc
      | pyint n => simp [PyVal.clone, ho] at hc

lemma copyValFitStep_ok_inv {self c : Solution} {st : GState} {s' : Solution} {st' : GState}
    (h : copyValFitStep self c st = .ok (s', st')) :
    ∃ ext, st'.heap = st.heap ++ ext ∧ st'.id_ = st.id_ ∧
      s'._id = c._id ∧ s'.repr_ = c.repr_ ∧ s'.valid = c.valid ∧ s'.fit = c.fit := by
  unfold copyValFitStep at h
  split at h
  · split at h
    · split at h
      · rename_i hc
        obtain ⟨a, d, hva, ho, hv', hh⟩ := clone_ok_inv hc
        injection h with hp
        injection hp with h1 h2
        subst h1
        subst h2
        subst hh
        exact ⟨[Obj.tensor d], rfl, rfl, rfl, rfl, rfl, rfl⟩
      · simp at h
    · simp at h
  · injection h with hp
    injection hp with h1 h2
    subst h1
    subst h2
    exact ⟨[], by simp, rfl, rfl, rfl, rfl, rfl⟩

lemma copyFitStep_ok_inv {self c : Solution} {st : GState} {s' : Solution} {st' : GState}
    (h : copyFitStep self c st = .ok (s', st')) :
    ∃ ext, st'.heap = st.heap ++ ext ∧ st'.id_ = st.id_ ∧
      s'._id = c._id ∧ s'.repr_ = c.repr_ ∧ s'.valid = c.valid ∧
      (c.fit.isSome = true → s'.fit.isSome = true) := by
  unfold copyFitStep at h
  split at h
  · split at h
    · rename_i hc
      obtain ⟨a, d, hva, ho, hv', hh⟩ := clone_ok_inv hc
      obtain ⟨ext, hheap, hid, h1, h2', h3, h4⟩ := copyValFitStep_ok_inv h
      subst hh
      refine ⟨Obj.tensor d :: ext, ?_, hid, h1, h2', h3, ?_⟩
      · rw [hheap]; simp
      · intro _; rw [h4]; rfl
    · simp at h
  · obtain ⟨ext, hheap, hid, h1, h2', h3, h4⟩ := copyValFitStep_ok_inv h
    exact ⟨ext, hheap, hid, h1, h2', h3, fun hc => by rw [h4]; exact hc⟩

lemma copyValidStep_ok_inv {self c : Solution} {st : GState} {s' : Solution} {st' : GState}
    (h : copyValidStep self c st = .ok (s', st')) :
    ∃ ext, st'.heap = st.heap ++ ext ∧ st'.id_ = st.id_ ∧
      s'._id = c._id ∧ s'.repr_ = c.repr_ ∧
      (c.valid.isSome = true → s'.valid.isSome = true) ∧
      (c.fit.isSome = true → s'.fit.isSome = true) := by
  unfold copyValidStep at h
  split at h
  · rename_i hval
    obtain ⟨ext, hheap, hid, h1, h2', h3, h4⟩ := copyFitStep_ok_inv h
    exact ⟨ext, hheap, hid, h1, h2', fun _ => by rw [h3]; exact hval, h4⟩
  · obtain ⟨ext, hheap, hid, h1, h2', h3, h4⟩ := copyFitStep_ok_inv h
    exact ⟨ext, hheap, hid, h1, h2', fun hv => by rw [h3]; exact hv, h4⟩

lemma getCopy_ok_inv {s : Solution} {st : GState} {s' : Solution} {st' : GState}
    (h : Solution.getCopy s st = .ok (s', st')) :
    ∃ obj ext, heapGet st.heap s.repr_ = some obj ∧
      s'.repr_ = st.heap.length ∧ s'._id = st.id_ ∧ st'.id_ = st.id_ + 1 ∧
      st'.heap = st.heap ++ obj :: ext ∧
      s'.valid.isSome = true ∧ s'.fit.isSome = true := by
  unfold Solution.getCopy at h
  split at h
  · rename_i d ho
    obtain ⟨ext, hheap, hid, h1, h2', h3, h4⟩ := copyValidStep_ok_inv h
    exact ⟨Obj.tensor d, ext, ho, h2', h1, hid, by rw [hheap]; simp [Solution.init, alloc],
      h3 rfl, h4 rfl⟩
  · rename_i es ho
    obtain ⟨ext, hheap, hid, h1, h2', h3, h4⟩ := copyValidStep_ok_inv h
    exact ⟨Obj.pylist es, ext, ho, h2', h1, hid, by rw [hheap]; simp [Solution.init, alloc],
      h3 rfl, h4 rfl⟩
  · simp at h
  · simp at h

lemma copyFitStep_fit_inv {self c : Solution} {st : GState} {s' : Solution} {st' : GState}
    {a : Addr} {d : List Int}
    (hfit : self.fit = some (.tensorRef a))
    (ha : heapGet st.heap a = some (.tensor d))
    (h : copyFitStep self c st = .ok (s', st')) :
    s'.fit = some (.tensorRef st.heap.length) ∧
    ∃ ext, st'.heap = st.heap ++ Obj.tensor d :: ext := by
  unfold copyFitStep at h
  simp only [hfit, PyVal.clone, ha, alloc] at h
  obtain ⟨ext, hheap, hid, h1, h2', h3, h4⟩ := copyValFitStep_ok_inv h
  refine ⟨by rw [h4], ext, ?_⟩
  rw [hheap]; simp

lemma copyValidStep_fit_inv {self c : Solution} {st : GState} {s' : Solution} {st' : GState}
    {a : Addr} {d : List Int}
    (hfit : self.fit = some (.tensorRef a))
    (ha : heapGet st.heap a = some (.tensor d))
    (h : copyValidStep self c st = .ok (s', st')) :
    s'.fit = some (.tensorRef st.heap.length) ∧
    ∃ ext, st'.heap = st.heap ++ Obj.tensor d :: ext := by
  unfold copyValidStep at h
  split at h
  · exact copyFitStep_fit_inv hfit ha h
  · exact copyFitStep_fit_inv hfit ha h

lemma getCopy_fit_inv {s : Solution} {st : GState} {s' : Solution} {st' : GState}
    {a : Addr} {d : List Int}
    (hfit : s.fit = some (.tensorRef a))
    (ha : heapGet st.heap a = some (.tensor d))
    (h : Solution.getCopy s st = .ok (s', st')) :
    s'.fit = some (.tensorRef (st.heap.length + 1)) ∧
    heapGet st'.heap (st.heap.length + 1) = some (.tensor d) ∧
    heapGet st'.heap a = some (.tensor d) := by
  have halt : a < st.heap.length := heapGet_lt_length ha
  unfold Solution.getCopy at h
  split at h
  · rename_i dr ho
    have ha1 : heapGet (st.heap ++ [Obj.tensor dr]) a = some (.tensor d) := by
      rw [heapGet_append_left _ halt]; exact ha
    obtain ⟨hfit', ext, hheap⟩ := copyValidStep_fit_inv hfit ha1 h
    simp only [Solution.init, alloc] at hfit' hheap
    constructor
    · rw [hfit']; simp
    constructor
    · have hm : heapGet ((st.heap ++ [Obj.tensor dr]) ++ Obj.tensor d :: ext)
          ((st.heap ++ [Obj.tensor dr]).length) = some (.tensor d) :=
        heapGet_append_mid _ _ _
      rw [hheap]
      simpa using hm
    · have hlt : a < (st.heap ++ [Obj.tensor dr]).length := by rw [List.length_append]; exact Nat.lt_succ_of_lt halt
      rw [hheap, heapGet_append_left _ hlt]
      exact ha1
  · rename_i es ho
    have ha1 : heapGet (st.heap ++ [Obj.pylist es]) a = some (.tensor d) := by
      rw [heapGet_append_left _ halt]; exact ha
    obtain ⟨hfit', ext, hheap⟩ := copyValidStep_fit_inv hfit ha1 h
    simp only [Solution.init, alloc] at hfit' hheap
    constructor
    · rw [hfit']; simp
    constructor
    · have hm : heapGet ((st.heap ++ [Obj.pylist es]) ++ Obj.tensor d :: ext)
          ((st.heap ++ [Obj.pylist es]).length) = some (.tensor d) :=
        heapGet_append_mid _ _ _
      rw [hheap]
      simpa using hm
    · have hlt : a < (st.heap ++ [Obj.pylist es]).length := by rw [List.length_append]; exact Nat.lt_succ_of_lt halt
      rw [hheap, heapGet_append_left _ hlt]
      exact ha1
  · simp at h
  · simp at h

/-! Concrete states used by the closed theorems and the witnesses. -/

def stFresh : GState := { heap := [Obj.pylist []], id_ := 0 }

def sOK : Solution :=
  { _id := 0, repr_ := 0, valid := some .none', fit := some (.tensorRef 1),
    test_fit := none, val_fit := none }

def stOK : GState := { heap := [Obj.pylist [0, 0, 0, 0, 0], Obj.tensor [7]], id_ := 1 }

def sOKCopy : Solution :=
  { _id := 1, repr_ := 2, valid := some .none', fit := some (.tensorRef 3),
    test_fit := none, val_fit := none }

def stOKCopy : GState :=
  { heap := [Obj.pylist [0, 0, 0, 0, 0], Obj.tensor [7],
             Obj.pylist [0, 0, 0, 0, 0], Obj.tensor [7]],
    id_ := 2 }

def sMismatchA : Solution :=
  { _id := 0, repr_ := 0, valid := some .none', fit := some (.tensorRef 1),
    test_fit := some (.tensorRef 2), val_fit := none }

def sMismatchB : Solution :=
  { _id := 0, repr_ := 0, valid := some .none', fit := some (.tensorRef 1),
    test_fit := none, val_fit := some (.tensorRef 2) }

def stMismatch : GState :=
  { heap := [Obj.pylist [], Obj.tensor [1], Obj.tensor [2]], id_ := 1 }

def hLen : Heap := [Obj.pylist [0, 0, 0, 0, 0], Obj.tensor [1, 2, 3, 4, 5], Obj.pyint 3]

def sListRepr : Solution :=
  { _id := 0, repr_ := 0, valid := some .none', fit := some .none',
    test_fit := none, val_fit := none }

def sTensorRepr : Solution := { sListRepr with repr_ := 1 }

def sIntRepr : Solution := { sListRepr with repr_ := 2 }

/-! Counter monotonicity: the invariant that the shared counter strictly
dominates every id assigned so far is established by the constructor and
preserved by further constructions and copies. -/

lemma init_id_lt (r : Addr) (st : GState) :
    (Solution.init r st).1._id < (Solution.init r st).2.id_ := Nat.lt_succ_self _

lemma init_mono_id (r : Addr) (st : GState) {n : Nat} (h : n < st.id_) :
    n < (Solution.init r st).2.id_ := Nat.lt_succ_of_lt h

lemma getCopy_mono_id {s : Solution} {st : GState} {s' : Solution} {st' : GState}
    (h : Solution.getCopy s st = .ok (s', st')) {n : Nat} (hn : n < st.id_) :
    n < st'.id_ := by
  obtain ⟨obj, ext, _, _, _, hid, _, _, _⟩ := getCopy_ok_inv h
  omega

lemma constructAll_ids (rs : List Addr) (st : GState) :
    ((constructAll rs st).1).map Solution._id = List.range' st.id_ rs.length := by
  induction rs generalizing st with
  | nil => rfl
  | cons r rest ih => simp [constructAll, Solution.init, List.range'_succ, ih]

/-- C1: the claim reads that copying a Solution whose fitness was never
set does not raise and yields a copy with fitness unset. The code
contradicts it: the constructor stores the value None in fit, so the
hasattr guard on fit is satisfied on a fresh Solution and _get_copy
evaluates None.clone(), raising AttributeError. This theorem evaluates
the model at the failing input, a freshly constructed Solution over a
list representation. -/
theorem copyOnFreshSolutionRaises :
    Solution.getCopy (Solution.init 0 stFresh).1 (Solution.init 0 stFresh).2 =
      .error (.attributeError "NoneType object has no attribute clone") := rfl

/-- C2: the claim reads that the validation fitness obeys the same
optional-copy policy as fit, cloned under the same attribute name when
present. The code checks hasattr for test_fit but reads and writes
val_fit: a Solution with test_fit present and val_fit absent makes
_get_copy raise AttributeError, and a Solution with val_fit present but
test_fit absent has its validation fitness silently dropped from the
copy. -/
theorem valFitGuardMismatch :
    Solution.getCopy sMismatchA stMismatch =
      .error (.attributeError "Solution object has no attribute val_fit") ∧
    (Solution.getCopy sMismatchB stMismatch).toOption.map (fun p => p.1.val_fit) =
      some none :=
  ⟨rfl, rfl⟩

/-- C3: over any single-threaded sequence of constructions the assigned
id values are strictly increasing in construction order and pairwise
distinct. -/
theorem idsStrictMonoNodup (rs : List Addr) (st : GState) :
    (((constructAll rs st).1).map Solution._id).Pairwise (· < ·) ∧
    (((constructAll rs st).1).map Solution._id).Nodup := by
  rw [constructAll_ids]
  exact ⟨List.pairwise_lt_range' _ _, List.nodup_range' _ _⟩

/-- C4: in any state whose counter strictly dominates the id of the
Solution being copied, the invariant the constructor maintains, a
successful copy receives the fresh counter value as id, distinct from
the id of the original. -/
theorem copyIdFresh (s : Solution) (st : GState) (hid : s._id < st.id_)
    (s' : Solution) (st' : GState) (hok : Solution.getCopy s st = .ok (s', st')) :
    s'._id ≠ s._id ∧ s'._id = st.id_ := by
  obtain ⟨obj, ext, _, _, hsid, _, _, _, _⟩ := getCopy_ok_inv hok
  exact ⟨by omega, hsid⟩

theorem copyIdFreshWitness : sOKCopy._id ≠ sOK._id ∧ sOKCopy._id = stOK.id_ :=
  copyIdFresh sOK stOK (by decide) sOKCopy stOKCopy rfl

/-- C5: the representation of a successful copy: a tensor representation
becomes an independent element-wise equal duplicate, so mutating either
buffer leaves the other unchanged, while a list representation is
duplicated as a fresh container holding the same element references,
the elements themselves not being cloned. -/
theorem copyReprIndependence (s : Solution) (st : GState) (s' : Solution) (st' : GState)
    (hok : Solution.getCopy s st = .ok (s', st')) :
    (∀ d, heapGet st.heap s.repr_ = some (.tensor d) →
      s'.repr_ ≠ s.repr_ ∧
      heapGet st'.heap s'.repr_ = some (.tensor d) ∧
      heapGet st'.heap s.repr_ = some (.tensor d) ∧
      ∀ i v, heapGet (mutate st'.heap s'.repr_ i v) s.repr_ = some (.tensor d) ∧
             heapGet (mutate st'.heap s.repr_ i v) s'.repr_ = some (.tensor d)) ∧
    (∀ es, heapGet st.heap s.repr_ = some (.pylist es) →
      s'.repr_ ≠ s.repr_ ∧
      heapGet st'.heap s'.repr_ = some (.pylist es) ∧
      heapGet st'.heap s.repr_ = some (.pylist es)) := by
  obtain ⟨obj, ext, ho, hrepr, _, _, hheap, _, _⟩ := getCopy_ok_inv hok
  have hlt : s.repr_ < st.heap.length := heapGet_lt_length ho
  have hne : s'.repr_ ≠ s.repr_ := by rw [hrepr]; exact (Nat.ne_of_lt hlt).symm
  have hget' : heapGet st'.heap s'.repr_ = some obj := by
    rw [hheap, hrepr]; exact heapGet_append_mid _ _ _
  have hget : heapGet st'.heap s.repr_ = some obj := by
    rw [hheap, heapGet_append_left _ hlt]; exact ho
  constructor
  · intro d hd
    have hobj : obj = Obj.tensor d := by rw [ho] at hd; exact Option.some.inj hd
    subst hobj
    refine ⟨hne, hget', hget, fun i v => ⟨?_, ?_⟩⟩
    · rw [mutate_ne hne]; exact hget
    · rw [mutate_ne (Ne.symm hne)]; exact hget'
  · intro es hes
    have hobj : obj = Obj.pylist es := by rw [ho] at hes; exact Option.some.inj hes
    subst hobj
    exact ⟨hne, hget', hget⟩

theorem copyReprIndependenceWitness :
    sOKCopy.repr_ ≠ sOK.repr_ ∧
    heapGet stOKCopy.heap sOKCopy.repr_ = some (Obj.pylist [0, 0, 0, 0, 0]) := by
  have h := (copyReprIndependence sOK stOK sOKCopy stOKCopy rfl).2 [0, 0, 0, 0, 0] rfl
  exact ⟨h.1, h.2.1⟩

/-- C6: construction stores the representation and leaves the validity
flag and the fitness unset, that is, holding the Python value None; no
validity check and no evaluation happen. -/
theorem initUnsetValidFit (r : Addr) (st : GState) :
    ((Solution.init r st).1).valid = some PyVal.none' ∧
    ((Solution.init r st).1).fit = some PyVal.none' ∧
    ((Solution.init r st).1).repr_ = r :=
  ⟨rfl, rfl, rfl⟩

/-- C7: the length of a Solution equals the element count of its
representation, for list representations and for tensor representations
alike. -/
theorem lenCorrect (s : Solution) (h : Heap) :
    (∀ es, heapGet h s.repr_ = some (.pylist es) → Solution.len s h = .ok es.length) ∧
    (∀ d, heapGet h s.repr_ = some (.tensor d) → Solution.len s h = .ok d.length) := by
  constructor <;> intro x hx <;> simp [Solution.len, hx]

theorem lenCorrectWitness :
    Solution.len sListRepr hLen = .ok 5 ∧ Solution.len sTensorRepr hLen = .ok 5 :=
  ⟨(lenCorrect sListRepr hLen).1 [0, 0, 0, 0, 0] rfl,
   (lenCorrect sTensorRepr hLen).2 [1, 2, 3, 4, 5] rfl⟩

/-- C8: when the fitness of a Solution is a tensor, a successful copy
carries a freshly allocated fitness buffer with the same data, and
mutating either buffer leaves the other unchanged. -/
theorem fitCloneDepth (s : Solution) (st : GState) (s' : Solution) (st' : GState)
    (a : Addr) (d : List Int)
    (hfit : s.fit = some (.tensorRef a))
    (ha : heapGet st.heap a = some (.tensor d))
    (hok : Solution.getCopy s st = .ok (s', st')) :
    s'.fit = some (.tensorRef (st.heap.length + 1)) ∧
    st.heap.length + 1 ≠ a ∧
    heapGet st'.heap (st.heap.length + 1) = some (.tensor d) ∧
    heapGet st'.heap a = some (.tensor d) ∧
    ∀ i v, heapGet (mutate st'.heap (st.heap.length + 1) i v) a = some (.tensor d) ∧
           heapGet (mutate st'.heap a i v) (st.heap.length + 1) = some (.tensor d) := by
  obtain ⟨h1, h2, h3⟩ := getCopy_fit_inv hfit ha hok
  have halt : a < st.heap.length := heapGet_lt_length ha
  have hne : st.heap.length + 1 ≠ a := Nat.ne_of_gt (Nat.lt_succ_of_lt halt)
  exact ⟨h1, hne, h2, h3, fun i v =>
    ⟨by rw [mutate_ne hne]; exact h3, by rw [mutate_ne (Ne.symm hne)]; exact h2⟩⟩

theorem fitCloneDepthWitness :
    sOKCopy.fit = some (PyVal.tensorRef 3) ∧
    heapGet stOKCopy.heap 3 = some (Obj.tensor [7]) ∧
    heapGet stOKCopy.heap 1 = some (Obj.tensor [7]) := by
  have h := fitCloneDepth sOK stOK sOKCopy stOKCopy 1 [7] rfl rfl rfl
  exact ⟨h.1, h.2.2.1, h.2.2.2.1⟩

/-- C9: the length query on a representation that supports no length,
modelled here by a Python int, fails with the descriptive TypeError
about the missing len support rather than succeeding or failing with an
unrelated error. -/
theorem lenUnsupportedRepr (s : Solution) (h : Heap) (n : Int)
    (hn : heapGet h s.repr_ = some (.pyint n)) :
    Solution.len s h = .error (.typeError "object of type int has no len") := by
  simp [Solution.len, hn]

theorem lenUnsupportedReprWitness :
    Solution.len sIntRepr hLen = .error (.typeError "object of type int has no len") :=
  lenUnsupportedRepr sIntRepr hLen 3 rfl

/-- C10: every Solution produced by the constructor carries the valid
and fit attributes, both holding None, so the hasattr guards on valid
and fit inside _get_copy are satisfied for every constructed Solution,
and every successful copy again carries both attributes. -/
theorem attrGuardsAlwaysHold :
    (∀ r st, ((Solution.init r st).1).valid = some PyVal.none' ∧
             ((Solution.init r st).1).fit = some PyVal.none' ∧
             ((Solution.init r st).1).valid.isSome = true ∧
             ((Solution.init r st).1).fit.isSome = true) ∧
    (∀ s st s' st', Solution.getCopy s st = .ok (s', st') →
      s'.valid.isSome = true ∧ s'.fit.isSome = true) := by
  refine ⟨fun r st => ⟨rfl, rfl, rfl, rfl⟩, fun s st s' st' hok => ?_⟩
  obtain ⟨obj, ext, _, _, _, _, _, hv, hf⟩ := getCopy_ok_inv hok
  exact ⟨hv, hf⟩

theorem attrGuardsAlwaysHoldWitness :
    ((Solution.init 0 stFresh).1).valid.isSome = true ∧
    sOKCopy.valid.isSome = true ∧ sOKCopy.fit.isSome = true :=
  ⟨(attrGuardsAlwaysHold.1 0 stFresh).2.2.1,
   (attrGuardsAlwaysHold.2 sOK stOK sOKCopy stOKCopy rfl).1,
   (attrGuardsAlwaysHold.2 sOK stOK sOKCopy stOKCopy rfl).2⟩
